import Mathlib

/-!
Verification of the keymaster wallet top-up/monitoring tool
(`tools/keymaster/keymaster.py`, `tools/keymaster/utils.py`,
`tools/keymaster/config.py`).

Shallow embedding conventions:
* Machine-level wei amounts are `Nat` when read from chain (balances,
  nonces, block heights are non-negative) and `Int` where Python
  arithmetic may go negative (`upper_bound - wallet_wei`).
* RPC calls are modelled through a `World` of attempt-indexed oracles:
  `balanceTry endpoint address attempt` is the outcome of the
  `attempt`-th raw RPC call.  The `@backoff.on_exception` decorators of
  `utils.py` become the `backoffExpoRun` combinator over these oracles.
  A raised exception that exhausts its retries is `Except.error ()`
  (Python `ValueError` escaping the decorator).
* `Web3.toChecksumAddress` is EIP-55 address normalisation; its keccak
  computation is irrelevant to every claim, so it is carried as the pure
  function field `toChecksum` of the `World`.  Likewise `sign` stands
  for `w3.eth.account.sign_transaction` (local, deterministic).
* Python dicts (`config["networks"]`, `config["homes"]`, the transaction
  queue) iterate in insertion order; the config invariant (spec §3) says
  every home/replica name resolves to a network entry, so the config is
  modelled as total maps `String → _` together with the ordered key
  lists that drive iteration.
* `time.sleep` calls are real-time only and have no observable effect in
  the model; the `backoff` library's sleep between attempts follows the
  `backoff.expo` generator (values 1, 2, 4, …, i.e. `2 ^ n`), recorded in
  the trace as the wait *schedule* (the library then applies its default
  random jitter inside `[0, value]`, which is real time and not modelled).
-/

/-- Result of `w3.eth.account.sign_transaction`: the signed payload.
Only `rawTransaction` is consumed by dispatch. -/
structure SignedTx where
  rawTransaction : String
deriving DecidableEq

/-- The `tx_params` dict built in `utils.create_transaction`. -/
structure TxParams where
  nonce : Nat
  gasPrice : Nat
  gas : Nat
  toAddr : String
  value : Int
  dataField : String
  chainId : Nat
deriving DecidableEq

/-- The environment of one run: attempt-indexed RPC oracles plus the pure
local primitives (address checksumming, signing).  The oracles are fixed
for the run, matching the single-writer-per-bank assumption of spec §5
under which the nonce-sequencing claim is stated. -/
structure World where
  balanceTry : String → String → Nat → Except Unit Nat
  nonceTry : String → String → Nat → Except Unit Nat
  blockTry : String → Nat → Except Unit Nat
  sendTry : String → String → Nat → Except Unit String
  chainId : String → Nat
  toChecksum : String → String
  sign : String → TxParams → String

/-- `networks.<name>.bank` config entry. -/
structure Bank where
  signer : String
  address : String

/-- `networks.<name>` config entry. -/
structure Network where
  endpoint : String
  threshold : Int
  bank : Bank

/-- `homes.<name>` config entry; `addresses` keeps the role → address
dict in insertion order. -/
structure Home where
  replicas : List String
  addresses : List (String × String)

/-- The loaded configuration: ordered key lists drive dict iteration,
the total maps give the entries (config invariant: every referenced
name exists). -/
structure Config where
  networkNames : List String
  networks : String → Network
  homeNames : List String
  homes : String → Home

/-- Trace of one `@backoff.on_exception(backoff.expo, ValueError,
max_tries=n)`-wrapped call: the final outcome, how many attempts were
made, and the `backoff.expo` wait schedule between attempts. -/
structure RetryTrace (α : Type) where
  result : Except Unit α
  attempts : Nat
  waits : List Nat

/-- The `backoff.on_exception(backoff.expo, ...)` combinator: attempt
`op i`, `op (i+1)`, … while failures remain, at most `fuel` attempts in
total; between a failed attempt `i` and the next one the `backoff.expo`
generator yields a wait of `2 ^ i` (no wait after the final attempt). -/
def backoffExpoRun {α : Type} (op : Nat → Except Unit α) (i : Nat) : Nat → RetryTrace α
  | 0 => ⟨Except.error (), 0, []⟩
  | n + 1 =>
    match op i with
    | Except.ok a => ⟨Except.ok a, 1, []⟩
    | Except.error _ =>
      if n = 0 then ⟨Except.error (), 1, []⟩
      else
        let t := backoffExpoRun op (i + 1) n
        ⟨t.result, t.attempts + 1, 2 ^ i :: t.waits⟩

/-- Full retry trace of `utils.get_nonce` (max_tries=18). -/
def nonceRetryTrace (w : World) (address endpoint : String) : RetryTrace Nat :=
  backoffExpoRun (w.nonceTry endpoint (w.toChecksum address)) 0 18

/-- `utils.get_nonce(address, endpoint)`: checksums the address and reads
`w3.eth.get_transaction_count`, retried up to 18 times. -/
def get_nonce (w : World) (address endpoint : String) : Except Unit Nat :=
  (nonceRetryTrace w address endpoint).result

/-- Full retry trace of `utils.get_balance` (max_tries=8). -/
def balanceRetryTrace (w : World) (address endpoint : String) : RetryTrace Nat :=
  backoffExpoRun (w.balanceTry endpoint (w.toChecksum address)) 0 8

/-- `utils.get_balance(address, endpoint)`: checksums the address and
reads `w3.eth.get_balance`, retried up to 8 times. -/
def get_balance (w : World) (address endpoint : String) : Except Unit Nat :=
  (balanceRetryTrace w address endpoint).result

/-- Full retry trace of `utils.get_block_height` (max_tries=8). -/
def blockRetryTrace (w : World) (endpoint : String) : RetryTrace Nat :=
  backoffExpoRun (w.blockTry endpoint) 0 8

/-- `utils.get_block_height(endpoint)`: reads `w3.eth.get_block_number`,
retried up to 8 times. -/
def get_block_height (w : World) (endpoint : String) : Except Unit Nat :=
  (blockRetryTrace w endpoint).result

/-- Full retry trace of `utils.dispatch_signed_transaction` (max_tries=8). -/
def sendRetryTrace (w : World) (signed : SignedTx) (endpoint : String) : RetryTrace String :=
  backoffExpoRun (w.sendTry endpoint signed.rawTransaction) 0 8

/-- `utils.dispatch_signed_transaction(signed_transaction, endpoint)`:
submits `signed_transaction.rawTransaction`, retried up to 8 times,
returning the transaction hash. -/
def dispatch_signed_transaction (w : World) (signed : SignedTx) (endpoint : String) :
    Except Unit String :=
  (sendRetryTrace w signed endpoint).result

/-- `utils.is_wallet_below_threshold(address, lower_bound, upper_bound,
endpoint)`: fetches the balance; below the lower bound it returns the
difference to the upper bound (`some`), otherwise Python `False`
(`none`).  The balance fetch may raise after exhausting retries. -/
def is_wallet_below_threshold (w : World) (address : String) (lower_bound upper_bound : Int)
    (endpoint : String) : Except Unit (Option Int) :=
  let address := w.toChecksum address
  match get_balance w address endpoint with
  | Except.error e => Except.error e
  | Except.ok wallet_wei =>
    if (wallet_wei : Int) < lower_bound then
      Except.ok (some (upper_bound - (wallet_wei : Int)))
    else
      Except.ok none

/-- Python substring test `pat in s`. -/
def containsSub (s pat : String) : Bool :=
  (s.splitOn pat).length != 1

/-- `utils.create_transaction(sender_key, recipient_address, amount,
nonce, endpoint)`: builds the `tx_params` dict (chain id fetched from the
endpoint at build time, flat 500 gwei gas price, the higher gas limit on
arb-rinkeby endpoints) and signs it, returning `(tx_params, signed_txn)`. -/
def create_transaction (w : World) (sender_key recipient_address : String) (amount : Int)
    (nonce : Nat) (endpoint : String) : TxParams × SignedTx :=
  let recipient := w.toChecksum recipient_address
  let chain_id := w.chainId endpoint
  let gas : Nat := if containsSub endpoint "arb-rinkeby" then 100000 * 100 else 100000
  let tx_params : TxParams :=
    { nonce := nonce
      gasPrice := 500 * 10 ^ 9
      gas := gas
      toAddr := recipient
      value := amount
      dataField := ""
      chainId := chain_id }
  (tx_params, { rawTransaction := w.sign sender_key tx_params })

/-- The per-chain transaction queue of `top_up`: chain name → queued
`(tx_params, signed_txn)` tuples, in append order. -/
def QMap : Type := String → List (TxParams × SignedTx)

/-- One evaluation of a monitored address against one chain: the home
block (keymaster.py lines 110-128) and the textually parallel replica
block (lines 131-147).  Fetches the threshold difference and the bank
nonce (both unconditionally), then — Python `if threshold_difference:` —
appends a transaction with nonce `bank_nonce + len(queue[chain])` when
the difference is truthy (`False` and `0` are falsy, any nonzero
integer, including a negative one, is truthy). -/
def processPair (w : World) (cfg : Config) (chain address : String) (q : QMap) :
    Except Unit QMap :=
  let net := cfg.networks chain
  let upper_bound := net.threshold
  let lower_bound : Int := 150000000000000000
  match is_wallet_below_threshold w address lower_bound upper_bound net.endpoint with
  | Except.error e => Except.error e
  | Except.ok threshold_difference =>
    match get_nonce w net.bank.address net.endpoint with
    | Except.error e => Except.error e
    | Except.ok bank_nonce =>
      match threshold_difference with
      | none => Except.ok q
      | some d =>
        if d = 0 then Except.ok q
        else
          let tx := create_transaction w net.bank.signer address d
            (bank_nonce + (q chain).length) net.endpoint
          Except.ok (fun n => if n = chain then q chain ++ [tx] else q n)

/-- The body of `for role, address in config["homes"][home]["addresses"]`:
evaluate the address on the home chain, then on each of the home's
replicas. -/
def processAddress (w : World) (cfg : Config) (home address : String) (q : QMap) :
    Except Unit QMap := do
  let q ← processPair w cfg home address q
  (cfg.homes home).replicas.foldlM (fun q r => processPair w cfg r address q) q

/-- The body of `for home in config["homes"]`. -/
def processHome (w : World) (cfg : Config) (home : String) (q : QMap) : Except Unit QMap :=
  (cfg.homes home).addresses.foldlM (fun q ra => processAddress w cfg home ra.2 q) q

/-- The queue-construction phase of `top_up`: initialise an empty queue
per network, then walk every home and every (role, address) pair.  Any
fetch that exhausts its retries raises out of `top_up` (there is no
exception handler), which the `Except` monad reflects. -/
def topUpQueues (w : World) (cfg : Config) : Except Unit QMap :=
  cfg.homeNames.foldlM (fun q h => processHome w cfg h q) (fun _ => [])

/-- A generic rendering of the orchestrator's evaluation step in which
the two watermarks used for one (chain, address) pair are an arbitrary
function of the chain's network entry.  This follows the spec's
description of the Threshold Evaluator contract
(`evaluate(address, lower_bound, upper_bound, chain)`); comparing
`topUpQueues` against its instantiation settles which bounds the
orchestrator actually wires in. -/
def processPairWith (lowerOf upperOf : Network → Int) (w : World) (cfg : Config)
    (chain address : String) (q : QMap) : Except Unit QMap :=
  let net := cfg.networks chain
  let upper_bound := upperOf net
  let lower_bound : Int := lowerOf net
  match is_wallet_below_threshold w address lower_bound upper_bound net.endpoint with
  | Except.error e => Except.error e
  | Except.ok threshold_difference =>
    match get_nonce w net.bank.address net.endpoint with
    | Except.error e => Except.error e
    | Except.ok bank_nonce =>
      match threshold_difference with
      | none => Except.ok q
      | some d =>
        if d = 0 then Except.ok q
        else
          let tx := create_transaction w net.bank.signer address d
            (bank_nonce + (q chain).length) net.endpoint
          Except.ok (fun n => if n = chain then q chain ++ [tx] else q n)

/-- `processAddress` with parameterized watermarks. -/
def processAddressWith (lowerOf upperOf : Network → Int) (w : World) (cfg : Config)
    (home address : String) (q : QMap) : Except Unit QMap := do
  let q ← processPairWith lowerOf upperOf w cfg home address q
  (cfg.homes home).replicas.foldlM (fun q r => processPairWith lowerOf upperOf w cfg r address q) q

/-- `processHome` with parameterized watermarks. -/
def processHomeWith (lowerOf upperOf : Network → Int) (w : World) (cfg : Config)
    (home : String) (q : QMap) : Except Unit QMap :=
  (cfg.homes home).addresses.foldlM
    (fun q ra => processAddressWith lowerOf upperOf w cfg home ra.2 q) q

/-- The queue-construction phase with parameterized watermarks. -/
def topUpQueuesWith (lowerOf upperOf : Network → Int) (w : World) (cfg : Config) :
    Except Unit QMap :=
  cfg.homeNames.foldlM (fun q h => processHomeWith lowerOf upperOf w cfg h q) (fun _ => [])

/-- How the top-up process ends after queue construction:
`completed` — fell off the end of the dispatch loop;
`aborted` — the operator declined `click.confirm(..., abort=True)`,
raising `click.Abort`;
`crashed` — an unhandled exception (a fetch or dispatch that exhausted
its retries) escaped. -/
inductive Outcome where
  | completed
  | aborted
  | crashed
deriving DecidableEq

/-- Process exit status for each outcome: a completed `top_up` command
exits 0; `click.Abort` is caught by click's standalone runner, which
prints "Aborted!" and exits 1; an uncaught Python exception terminates
the interpreter with exit status 1. -/
def exitCode : Outcome → Nat
  | Outcome.completed => 0
  | Outcome.aborted => 1
  | Outcome.crashed => 1

/-- The inner dispatch loop `for transaction_tuple in
transaction_queue[network]`: returns the queue entries whose dispatch
was attempted (in order), the hashes of the successful dispatches, and
whether the loop ran to completion.  A `dispatch_signed_transaction`
that exhausts its retries raises, so no later entry is attempted. -/
def drainQueue (w : World) (endpoint : String) :
    List (TxParams × SignedTx) → List (TxParams × SignedTx) × List String × Bool
  | [] => ([], [], true)
  | e :: rest =>
    match dispatch_signed_transaction w e.2 endpoint with
    | Except.ok h =>
      let t := drainQueue w endpoint rest
      (e :: t.1, h :: t.2.1, t.2.2)
    | Except.error _ => ([e], [], false)

/-- The dispatched-transaction log and final outcome of the dispatch
phase, network by network. -/
structure DispatchOut where
  attempted : List (String × (TxParams × SignedTx))
  sent : List (String × String)
  outcome : Outcome
deriving DecidableEq

/-- The dispatch loop `for network in transaction_queue` of `top_up`
(keymaster.py lines 150-169), over the given list of network names:
skip empty queues; otherwise fetch the bank balance for the stats line
(a failure here raises and crashes the run), ask
`click.confirm(..., abort=True)` — modelled by the operator's decision
function `d` — and on decline raise `click.Abort`, ending the whole
loop; on confirmation drain the queue in append order. -/
def dispatchNetworks (w : World) (cfg : Config) (d : String → Bool) (q : QMap) :
    List String → DispatchOut
  | [] => ⟨[], [], Outcome.completed⟩
  | n :: rest =>
    let net := cfg.networks n
    if 0 < (q n).length then
      match get_balance w net.bank.address net.endpoint with
      | Except.error _ => ⟨[], [], Outcome.crashed⟩
      | Except.ok _ =>
        if d n then
          let t := drainQueue w net.endpoint (q n)
          let attN := t.1.map (fun e => (n, e))
          let sentN := t.2.1.map (fun h => (n, h))
          if t.2.2 then
            let r := dispatchNetworks w cfg d q rest
            ⟨attN ++ r.attempted, sentN ++ r.sent, r.outcome⟩
          else ⟨attN, sentN, Outcome.crashed⟩
        else ⟨[], [], Outcome.aborted⟩
    else dispatchNetworks w cfg d q rest

/-- The dispatch phase of `top_up` over all configured networks (the
keys of `transaction_queue`, i.e. the networks in config order). -/
def dispatchPhase (w : World) (cfg : Config) (d : String → Bool) (q : QMap) : DispatchOut :=
  dispatchNetworks w cfg d q cfg.networkNames

/-- A gauge update performed by one `monitor` poll cycle. -/
inductive MetricEvent where
  | blockHeight (network : String) (value : Nat)
  | walletBalance (role home address network : String) (value : Nat)
  | transactionCount (role home address network : String) (value : Nat)
deriving DecidableEq

/-- One cycle of the `monitor` event loop (keymaster.py lines 68-92):
for each network, fetch the block height with a single raw
`w3.eth.get_block_number()` call (the un-decorated attempt 0 — `monitor`
does not go through `utils.get_block_height`), then for every home and
every (role, account) pair fetch balance (retried, 8) and nonce
(retried, 18) over this network's endpoint and set the gauges.  There
is no exception handler anywhere in the loop, so a single failed fetch
raises out of the cycle (and out of the `while True` loop, ending the
process). -/
def monitorCycle (w : World) (cfg : Config) : Except Unit (List MetricEvent) :=
  cfg.networkNames.foldlM (fun acc name =>
    let net := cfg.networks name
    match w.blockTry net.endpoint 0 with
    | Except.error e => Except.error e
    | Except.ok block_height =>
      cfg.homeNames.foldlM (fun acc2 home_name =>
        (cfg.homes home_name).addresses.foldlM (fun acc3 ra =>
          match get_balance w ra.2 net.endpoint with
          | Except.error e => Except.error e
          | Except.ok wallet_wei =>
            match get_nonce w ra.2 net.endpoint with
            | Except.error e => Except.error e
            | Except.ok tx_count =>
              Except.ok (acc3 ++
                [MetricEvent.walletBalance ra.1 home_name ra.2 name wallet_wei,
                 MetricEvent.transactionCount ra.1 home_name ra.2 name tx_count]))
          acc2)
        (acc ++ [MetricEvent.blockHeight name block_height]))
    []

/-- A run environment in which every RPC call succeeds on its first
attempt: every monitored address holds 0.1 ETH (below the
150000000000000000 wei lower watermark) and every bank nonce is 5. -/
def wOk : World :=
  { balanceTry := fun _ _ _ => Except.ok 100000000000000000
    nonceTry := fun _ _ _ => Except.ok 5
    blockTry := fun _ _ => Except.ok 12
    sendTry := fun _ _ _ => Except.ok "0xhash"
    chainId := fun _ => 1
    toChecksum := fun s => s
    sign := fun _ _ => "0xraw" }

/-- One-network topology: chain "a" is its own home with two monitored
addresses and no replicas; top-up target (threshold) 2 ETH. -/
def cfgW1 : Config :=
  { networkNames := ["a"]
    networks := fun _ =>
      { endpoint := "ea"
        threshold := 2000000000000000000
        bank := { signer := "sk", address := "ba" } }
    homeNames := ["a"]
    homes := fun _ =>
      { replicas := []
        addresses := [("updater", "A1"), ("watcher", "A2")] } }

/-- The queue map produced by running the queue-construction phase on
`wOk`/`cfgW1` (both addresses need a top-up, so chain "a" queues two
transactions). -/
def qW1 : QMap :=
  match topUpQueues wOk cfgW1 with
  | Except.ok q => q
  | Except.error _ => fun _ => []

/-- Two-network topology for the unrecoverable-read scenario: homes
"g" and "d", each its own chain, one monitored address each. -/
def cfgC4 : Config :=
  { networkNames := ["g", "d"]
    networks := fun n =>
      if n = "g" then
        { endpoint := "eg"
          threshold := 2000000000000000000
          bank := { signer := "skg", address := "bg" } }
      else
        { endpoint := "ed"
          threshold := 2000000000000000000
          bank := { signer := "skd", address := "bd" } }
    homeNames := ["g", "d"]
    homes := fun h =>
      if h = "g" then { replicas := [], addresses := [("updater", "A1")] }
      else { replicas := [], addresses := [("updater", "A2")] } }

/-- Environment where every nonce query against endpoint "eg" raises on
every attempt (the bank nonce fetch for chain "g" exhausts its 18
retries) while everything else succeeds. -/
def wC4 : World :=
  { balanceTry := fun _ _ _ => Except.ok 100000000000000000
    nonceTry := fun ep _ _ => if ep = "eg" then Except.error () else Except.ok 0
    blockTry := fun _ _ => Except.ok 12
    sendTry := fun _ _ _ => Except.ok "0xhash"
    chainId := fun _ => 1
    toChecksum := fun s => s
    sign := fun _ _ => "0xraw" }

/-- A queued transaction destined for chain "a" in the dispatch-phase
scenarios. -/
def entryA : TxParams × SignedTx :=
  ({ nonce := 5, gasPrice := 500000000000, gas := 100000, toAddr := "A1",
     value := 1900000000000000000, dataField := "", chainId := 1 },
   { rawTransaction := "rawA" })

/-- A queued transaction destined for chain "b". -/
def entryB : TxParams × SignedTx :=
  ({ nonce := 9, gasPrice := 500000000000, gas := 100000, toAddr := "A2",
     value := 1900000000000000000, dataField := "", chainId := 2 },
   { rawTransaction := "rawB" })

/-- Two-network topology for the dispatch-phase scenarios. -/
def cfgD : Config :=
  { networkNames := ["a", "b"]
    networks := fun n =>
      if n = "a" then
        { endpoint := "ea"
          threshold := 2000000000000000000
          bank := { signer := "ska", address := "ka" } }
      else
        { endpoint := "eb"
          threshold := 2000000000000000000
          bank := { signer := "skb", address := "kb" } }
    homeNames := ["a", "b"]
    homes := fun h =>
      if h = "a" then { replicas := [], addresses := [("updater", "A1")] }
      else { replicas := [], addresses := [("updater", "A2")] } }

/-- A pending queue holding one transaction on each of "a" and "b". -/
def qD : QMap :=
  fun n => if n = "a" then [entryA] else if n = "b" then [entryB] else []

/-- Operator who confirms chain "a" and declines chain "b". -/
def opDeclineB : String → Bool := fun n => n != "b"

/-- Operator who declines every confirmation prompt. -/
def opDeclineAll : String → Bool := fun _ => false

/-- Three queue entries with distinct raw payloads for the best-effort
drain scenario. -/
def entry0 : TxParams × SignedTx :=
  ({ nonce := 5, gasPrice := 500000000000, gas := 100000, toAddr := "A1",
     value := 10, dataField := "", chainId := 1 }, { rawTransaction := "r0" })

/-- Second queue entry (nonce 6). -/
def entry1 : TxParams × SignedTx :=
  ({ nonce := 6, gasPrice := 500000000000, gas := 100000, toAddr := "A2",
     value := 11, dataField := "", chainId := 1 }, { rawTransaction := "r1" })

/-- Third queue entry (nonce 7). -/
def entry2 : TxParams × SignedTx :=
  ({ nonce := 7, gasPrice := 500000000000, gas := 100000, toAddr := "A3",
     value := 12, dataField := "", chainId := 1 }, { rawTransaction := "r2" })

/-- Environment where submitting raw payload "r1" raises on every
attempt (the second transaction's dispatch exhausts its 8 retries)
while every other submission succeeds. -/
def w5 : World :=
  { balanceTry := fun _ _ _ => Except.ok 100000000000000000
    nonceTry := fun _ _ _ => Except.ok 5
    blockTry := fun _ _ => Except.ok 12
    sendTry := fun _ raw _ => if raw = "r1" then Except.error () else Except.ok "0xhash"
    chainId := fun _ => 1
    toChecksum := fun s => s
    sign := fun _ _ => "0xraw" }

/-- Misconfigured topology: chain "alpha" has a top-up target
(threshold, the upper bound) of 0.05 ETH, below the hard-coded
0.15 ETH lower watermark. -/
def cfg6 : Config :=
  { networkNames := ["alpha"]
    networks := fun _ =>
      { endpoint := "epA"
        threshold := 50000000000000000
        bank := { signer := "sk", address := "bank" } }
    homeNames := ["alpha"]
    homes := fun _ => { replicas := [], addresses := [("kathy", "A")] } }

/-- Environment for the misconfiguration scenario: the monitored
address holds 0.1 ETH — between the configured 0.05 ETH upper bound and
the 0.15 ETH lower watermark. -/
def w6 : World :=
  { balanceTry := fun _ _ _ => Except.ok 100000000000000000
    nonceTry := fun _ _ _ => Except.ok 7
    blockTry := fun _ _ => Except.ok 12
    sendTry := fun _ _ _ => Except.ok "0xhash"
    chainId := fun _ => 1
    toChecksum := fun s => s
    sign := fun _ _ => "0xsigned" }

/-- Two-network topology for the monitor scenario. -/
def cfg7 : Config :=
  { networkNames := ["n1", "n2"]
    networks := fun n =>
      if n = "n1" then
        { endpoint := "e1"
          threshold := 2000000000000000000
          bank := { signer := "sk1", address := "k1" } }
      else
        { endpoint := "e2"
          threshold := 2000000000000000000
          bank := { signer := "sk2", address := "k2" } }
    homeNames := ["n1"]
    homes := fun _ => { replicas := [], addresses := [("updater", "A")] } }

/-- Environment where every balance query against endpoint "e1" raises
on every attempt, while endpoint "e2" is perfectly healthy. -/
def w7 : World :=
  { balanceTry := fun ep _ _ => if ep = "e1" then Except.error () else Except.ok 5
    nonceTry := fun _ _ _ => Except.ok 1
    blockTry := fun _ _ => Except.ok 3
    sendTry := fun _ _ _ => Except.ok "0xhash"
    chainId := fun _ => 1
    toChecksum := fun s => s
    sign := fun _ _ => "0xraw" }

/-- Variant of `w7` whose raw block-height call also fails. -/
def w7b : World :=
  { w7 with blockTry := fun _ _ => Except.error () }

/-- Environment in which every RPC attempt fails. -/
def wFail : World :=
  { balanceTry := fun _ _ _ => Except.error ()
    nonceTry := fun _ _ _ => Except.error ()
    blockTry := fun _ _ => Except.error ()
    sendTry := fun _ _ _ => Except.error ()
    chainId := fun _ => 1
    toChecksum := fun s => s
    sign := fun _ _ => "0xraw" }

/-- A signed payload used to exercise the dispatch retry wrapper. -/
def sTxF : SignedTx := { rawTransaction := "rF" }

/-- Topology whose chain "z" has a top-up target (threshold) of exactly
0.1 ETH. -/
def cfg10 : Config :=
  { networkNames := ["z"]
    networks := fun _ =>
      { endpoint := "ez"
        threshold := 100000000000000000
        bank := { signer := "skz", address := "kz" } }
    homeNames := ["z"]
    homes := fun _ => { replicas := [], addresses := [("updater", "A")] } }

/-- Environment where the monitored address holds exactly 0.1 ETH —
below the 0.15 ETH lower watermark and equal to chain "z"'s configured
upper bound. -/
def w10 : World :=
  { balanceTry := fun _ _ _ => Except.ok 100000000000000000
    nonceTry := fun _ _ _ => Except.ok 3
    blockTry := fun _ _ => Except.ok 12
    sendTry := fun _ _ _ => Except.ok "0xhash"
    chainId := fun _ => 1
    toChecksum := fun s => s
    sign := fun _ _ => "0xraw" }

/-- Invariant tying every chain's queue to its bank's on-chain nonce:
whenever the bank nonce for chain `c` reads as `base`, the nonces queued
for `c` are exactly `base, base+1, …` in append order. -/
def NonceInv (w : World) (cfg : Config) (q : QMap) : Prop :=
  ∀ c base,
    get_nonce w (cfg.networks c).bank.address (cfg.networks c).endpoint = Except.ok base →
    (q c).map (fun t => t.1.nonce) = List.range' base ((q c).length)

theorem foldlM_except_inv {α β : Type} (P : β → Prop) (f : β → α → Except Unit β)
    (hf : ∀ b a b', f b a = Except.ok b' → P b → P b') :
    ∀ (l : List α) (b b' : β), List.foldlM f b l = Except.ok b' → P b → P b' := by
  intro l
  induction l with
  | nil =>
    intro b b' h hP
    simp only [List.foldlM_nil, pure, Except.pure, Except.ok.injEq] at h
    exact h ▸ hP
  | cons a l ih =>
    intro b b' h hP
    rw [List.foldlM_cons] at h
    cases hfa : f b a with
    | error e =>
      rw [hfa] at h
      simp only [Bind.bind, Except.bind] at h
      exact Except.noConfusion h
    | ok b2 =>
      rw [hfa] at h
      simp only [Bind.bind, Except.bind] at h
      exact ih b2 b' h (hf b a b2 hfa hP)

theorem foldlM_except_error_head {α β : Type} (f : β → α → Except Unit β) (a : α)
    (l : List α) (b : β) (e : Unit) (h : f b a = Except.error e) :
    List.foldlM f b (a :: l) = Except.error e := by
  rw [List.foldlM_cons, h]
  rfl

theorem backoffExpoRun_succ_succ {α : Type} (op : Nat → Except Unit α) (i k : Nat) (e : Unit)
    (hop : op i = Except.error e) :
    backoffExpoRun op i (k + 2) =
      ⟨(backoffExpoRun op (i + 1) (k + 1)).result,
       (backoffExpoRun op (i + 1) (k + 1)).attempts + 1,
       2 ^ i :: (backoffExpoRun op (i + 1) (k + 1)).waits⟩ := by
  simp [backoffExpoRun, hop]

theorem backoffExpoRun_attempts_le {α : Type} (op : Nat → Except Unit α) :
    ∀ (n i : Nat), (backoffExpoRun op i n).attempts ≤ n := by
  intro n
  induction n with
  | zero => intro i; exact Nat.le_refl _
  | succ m ih =>
    intro i
    cases hop : op i with
    | ok a => simp [backoffExpoRun, hop]
    | error e =>
      cases m with
      | zero => simp [backoffExpoRun, hop]
      | succ k =>
        have h1 := ih (i + 1)
        rw [backoffExpoRun_succ_succ op i k e hop]
        show (backoffExpoRun op (i + 1) (k + 1)).attempts + 1 ≤ k + 1 + 1
        omega

theorem backoffExpoRun_attempts_pos {α : Type} (op : Nat → Except Unit α) (m i : Nat) :
    0 < (backoffExpoRun op i (m + 1)).attempts := by
  cases hop : op i with
  | ok a => simp [backoffExpoRun, hop]
  | error e =>
    cases m with
    | zero => simp [backoffExpoRun, hop]
    | succ k =>
      rw [backoffExpoRun_succ_succ op i k e hop]
      exact Nat.succ_pos _

theorem backoffExpoRun_waits_expo {α : Type} (op : Nat → Except Unit α) :
    ∀ (n i : Nat),
      (backoffExpoRun op i n).waits =
        (List.range' i ((backoffExpoRun op i n).attempts - 1)).map (fun k => 2 ^ k) := by
  intro n
  induction n with
  | zero => intro i; rfl
  | succ m ih =>
    intro i
    cases hop : op i with
    | ok a => simp [backoffExpoRun, hop]
    | error e =>
      cases m with
      | zero => simp [backoffExpoRun, hop]
      | succ k =>
        have hpos := backoffExpoRun_attempts_pos op k (i + 1)
        have hih := ih (i + 1)
        rw [backoffExpoRun_succ_succ op i k e hop]
        show 2 ^ i :: (backoffExpoRun op (i + 1) (k + 1)).waits =
          (List.range' i ((backoffExpoRun op (i + 1) (k + 1)).attempts + 1 - 1)).map
            (fun k => 2 ^ k)
        obtain ⟨j, hj⟩ : ∃ j, (backoffExpoRun op (i + 1) (k + 1)).attempts = j + 1 :=
          ⟨(backoffExpoRun op (i + 1) (k + 1)).attempts - 1, by omega⟩
        rw [hih, hj]
        simp [List.range'_succ]

theorem backoffExpoRun_all_fail {α : Type} (op : Nat → Except Unit α) :
    ∀ (n i : Nat), (∀ j, j < n → op (i + j) = Except.error ()) →
      (backoffExpoRun op i n).result = Except.error () := by
  intro n
  induction n with
  | zero => intro i _; rfl
  | succ m ih =>
    intro i h
    have h0 : op i = Except.error () := by
      have := h 0 (Nat.succ_pos m)
      simpa using this
    cases m with
    | zero => simp [backoffExpoRun, h0]
    | succ k =>
      have hrec := ih (i + 1) (fun j hj => by
        have := h (j + 1) (by omega)
        rwa [show i + (j + 1) = i + 1 + j by omega] at this)
      rw [backoffExpoRun_succ_succ op i k () h0]
      exact hrec

theorem processPair_nonceInv (w : World) (cfg : Config) (chain address : String)
    (q q' : QMap) (h : processPair w cfg chain address q = Except.ok q')
    (hP : NonceInv w cfg q) : NonceInv w cfg q' := by
  simp only [processPair] at h
  split at h
  next e heq => exact Except.noConfusion h
  next td heq =>
    split at h
    next e2 heq2 => exact Except.noConfusion h
    next bank_nonce heqn =>
      split at h
      next =>
        injection h with h
        subst h
        exact hP
      next d =>
        split at h
        next hd =>
          injection h with h
          subst h
          exact hP
        next hd =>
          injection h with h
          subst h
          intro c base hbase
          by_cases hc : c = chain
          · subst hc
            have hb2 : base = bank_nonce := by
              have := hbase.symm.trans heqn
              injection this
            have happ :
                (fun n =>
                  if n = c then
                    q c ++ [create_transaction w (cfg.networks c).bank.signer address d
                      (bank_nonce + (q c).length) (cfg.networks c).endpoint]
                  else q n) c =
                q c ++ [create_transaction w (cfg.networks c).bank.signer address d
                  (bank_nonce + (q c).length) (cfg.networks c).endpoint] := by
              simp
            rw [happ, List.map_append, List.length_append]
            rw [hP c base hbase]
            simp [create_transaction, List.range'_1_concat, hb2]
          · have happ :
                (fun n =>
                  if n = chain then
                    q chain ++ [create_transaction w (cfg.networks chain).bank.signer address d
                      (bank_nonce + (q chain).length) (cfg.networks chain).endpoint]
                  else q n) c = q c := by
              simp [hc]
            rw [happ]
            exact hP c base hbase

theorem processAddress_nonceInv (w : World) (cfg : Config) (home address : String)
    (q q' : QMap) (h : processAddress w cfg home address q = Except.ok q')
    (hP : NonceInv w cfg q) : NonceInv w cfg q' := by
  simp only [processAddress] at h
  cases hp : processPair w cfg home address q with
  | error e =>
    rw [hp] at h
    simp only [Bind.bind, Except.bind] at h
    exact Except.noConfusion h
  | ok q1 =>
    rw [hp] at h
    simp only [Bind.bind, Except.bind] at h
    exact foldlM_except_inv (NonceInv w cfg) _
      (fun b a b' hb hPb => processPair_nonceInv w cfg a address b b' hb hPb)
      _ q1 q' h (processPair_nonceInv w cfg home address q q1 hp hP)

theorem processHome_nonceInv (w : World) (cfg : Config) (home : String)
    (q q' : QMap) (h : processHome w cfg home q = Except.ok q')
    (hP : NonceInv w cfg q) : NonceInv w cfg q' := by
  simp only [processHome] at h
  exact foldlM_except_inv (NonceInv w cfg) _
    (fun b a b' hb hPb => processAddress_nonceInv w cfg home a.2 b b' hb hPb)
    _ q q' h hP

theorem topUpQueues_nonceInv (w : World) (cfg : Config) (q : QMap)
    (h : topUpQueues w cfg = Except.ok q) : NonceInv w cfg q := by
  simp only [topUpQueues] at h
  exact foldlM_except_inv (NonceInv w cfg) _
    (fun b a b' hb hPb => processHome_nonceInv w cfg a b b' hb hPb)
    _ (fun _ => []) q h (fun c base _ => rfl)

/-- C1: for every chain queue built in one top-up run containing N
queued top-ups for the same bank, the nonces assigned to the queued
transactions are base_nonce, base_nonce+1, …, base_nonce+N-1 in append
order, where base_nonce is the bank's on-chain nonce as read during
queue construction (each transaction's nonce is the bank's current
on-chain nonce plus the length of that chain's queue at the moment it
is built). -/
theorem c1_nonce_sequencing (w : World) (cfg : Config) (q : QMap) (c : String) (base : Nat)
    (hrun : topUpQueues w cfg = Except.ok q)
    (hbase : get_nonce w (cfg.networks c).bank.address (cfg.networks c).endpoint =
      Except.ok base) :
    (q c).map (fun t => t.1.nonce) = List.range' base ((q c).length) :=
  topUpQueues_nonceInv w cfg q hrun c base hbase

/-- C1 witness: on `wOk`/`cfgW1` both monitored addresses of chain "a"
need a top-up; the two queued transactions carry nonces 5 and 6 where 5
is the bank's on-chain nonce. -/
theorem c1_witness :
    (qW1 "a").map (fun t => t.1.nonce) = List.range' 5 ((qW1 "a").length) :=
  c1_nonce_sequencing wOk cfgW1 qW1 "a" 5 rfl rfl

/-- C2: with the fetched balance `b`, the threshold evaluator returns
no-action (Python `False`) when `b` is at least the lower bound; when
`b` is below the lower bound and the upper bound is at least the lower
bound, it returns `upper_bound - b`, which is strictly positive. -/
theorem c2_threshold_evaluator (w : World) (address endpoint : String)
    (lower_bound upper_bound : Int) (b : Nat)
    (hb : get_balance w (w.toChecksum address) endpoint = Except.ok b) :
    (lower_bound ≤ (b : Int) →
      is_wallet_below_threshold w address lower_bound upper_bound endpoint = Except.ok none)
    ∧ ((b : Int) < lower_bound → lower_bound ≤ upper_bound →
      is_wallet_below_threshold w address lower_bound upper_bound endpoint =
          Except.ok (some (upper_bound - (b : Int)))
        ∧ 0 < upper_bound - (b : Int)) := by
  constructor
  · intro hge
    simp only [is_wallet_below_threshold, hb]
    rw [if_neg (by omega)]
  · intro hlt hbounds
    constructor
    · simp only [is_wallet_below_threshold, hb]
      rw [if_pos hlt]
    · omega

/-- C2 witness: balance 0.1 ETH, lower bound 0.15 ETH, upper bound
2 ETH — the evaluator returns a top-up of 1.9 ETH, strictly positive. -/
theorem c2_witness :
    is_wallet_below_threshold wOk "A1" 150000000000000000 2000000000000000000 "ea" =
        Except.ok (some (2000000000000000000 - ((100000000000000000 : Nat) : Int)))
      ∧ 0 < 2000000000000000000 - ((100000000000000000 : Nat) : Int) :=
  (c2_threshold_evaluator wOk "A1" "ea" 150000000000000000 2000000000000000000
    100000000000000000 rfl).2 (by decide) (by decide)

theorem dispatchNetworks_skip_empty (w : World) (cfg : Config) (d : String → Bool) (q : QMap) :
    ∀ (pre rest : List String), (∀ n ∈ pre, q n = []) →
      dispatchNetworks w cfg d q (pre ++ rest) = dispatchNetworks w cfg d q rest := by
  intro pre
  induction pre with
  | nil => intro rest _; rfl
  | cons a pre ih =>
    intro rest hpre
    have ha : q a = [] := hpre a (List.mem_cons_self a pre)
    show dispatchNetworks w cfg d q (a :: (pre ++ rest)) = _
    simp only [dispatchNetworks]
    rw [ha]
    simp
    exact ih rest (fun n hn => hpre n (List.mem_cons_of_mem a hn))

/-- C3 counterexample: on `cfgD` with one pending transaction on each
of "a" and "b", an operator who confirms "a" and declines "b" still
gets the transaction on chain "a" dispatched, and the process exit
status is 1 (click's `Abort`), not 0 — so declining one chain's prompt
neither prevents dispatch on every other chain with a pending queue nor
exits with a zero code. -/
theorem c3_counterexample :
    (dispatchPhase wOk cfgD opDeclineB qD).sent = [("a", "0xhash")]
    ∧ (dispatchPhase wOk cfgD opDeclineB qD).outcome = Outcome.aborted
    ∧ exitCode (dispatchPhase wOk cfgD opDeclineB qD).outcome = 1 :=
  ⟨rfl, rfl, rfl⟩

/-- C3 amended: declining the confirmation prompt raises `click.Abort`,
ending the dispatch loop at that chain with exit status 1 (not 0);
chains confirmed earlier in the run have already been dispatched.  In
particular, when the declined chain is the first one with a pending
queue, nothing at all is dispatched in the run. -/
theorem c3_decline_aborts (w : World) (cfg : Config) (d : String → Bool) (q : QMap)
    (pre post : List String) (c : String) (bb : Nat)
    (hnames : cfg.networkNames = pre ++ c :: post)
    (hpre : ∀ n ∈ pre, q n = [])
    (hq : q c ≠ [])
    (hbal : get_balance w (cfg.networks c).bank.address (cfg.networks c).endpoint =
      Except.ok bb)
    (hd : d c = false) :
    dispatchPhase w cfg d q = ⟨[], [], Outcome.aborted⟩
    ∧ exitCode (dispatchPhase w cfg d q).outcome = 1 := by
  have hcpos : 0 < (q c).length := List.length_pos.mpr hq
  have habort : dispatchNetworks w cfg d q (c :: post) = ⟨[], [], Outcome.aborted⟩ := by
    simp [dispatchNetworks, hbal, hd, hcpos]
  have hrun : dispatchPhase w cfg d q = ⟨[], [], Outcome.aborted⟩ := by
    unfold dispatchPhase
    rw [hnames, dispatchNetworks_skip_empty w cfg d q pre (c :: post) hpre, habort]
  exact ⟨hrun, by rw [hrun]; rfl⟩

/-- C3 witness: an operator who declines every prompt on the two-chain
topology with both queues pending — nothing is dispatched and the exit
status is 1. -/
theorem c3_witness :
    dispatchPhase wOk cfgD opDeclineAll qD = ⟨[], [], Outcome.aborted⟩
    ∧ exitCode (dispatchPhase wOk cfgD opDeclineAll qD).outcome = 1 :=
  c3_decline_aborts wOk cfgD opDeclineAll qD [] ["b"] "a" 100000000000000000 rfl
    (fun n hn => absurd hn (List.not_mem_nil n)) (by decide) rfl rfl

/-- C4 counterexample: on `cfgC4` the bank-nonce fetch for chain "g"
exhausts its 18 retries; the exception propagates out of `top_up` (there
is no handler), so the whole run aborts — chain "d"'s address is never
evaluated, contradicting the claim that only the one (home, address)
pair is abandoned while the run proceeds. -/
theorem c4_counterexample :
    get_nonce wC4 "bg" "eg" = Except.error ()
    ∧ topUpQueues wC4 cfgC4 = Except.error () :=
  ⟨rfl, rfl⟩

/-- C4 amended: an unrecoverable read (a balance or nonce fetch that
exhausts its retries) while the first (home, address) pair is processed
aborts the entire top-up run — no matter what other homes, addresses or
replicas remain in the configuration. -/
theorem c4_read_failure_aborts_run (w : World) (cfg : Config) (h0 : String)
    (hrest : List String) (role addr : String) (arest : List (String × String)) (e : Unit)
    (hnames : cfg.homeNames = h0 :: hrest)
    (haddr : (cfg.homes h0).addresses = (role, addr) :: arest)
    (hfail : processPair w cfg h0 addr (fun _ => []) = Except.error e) :
    topUpQueues w cfg = Except.error e := by
  unfold topUpQueues
  rw [hnames]
  apply foldlM_except_error_head
  unfold processHome
  rw [haddr]
  apply foldlM_except_error_head
  show processAddress w cfg h0 addr (fun _ => []) = Except.error e
  unfold processAddress
  rw [hfail]
  rfl

/-- C4 witness: on `wC4`/`cfgC4` the failed bank-nonce fetch for chain
"g" (the first processed pair) makes the whole run error out. -/
theorem c4_witness : topUpQueues wC4 cfgC4 = Except.error () :=
  c4_read_failure_aborts_run wC4 cfgC4 "g" ["d"] "updater" "A1" [] () rfl rfl rfl

/-- C5 counterexample: draining the queue [entry0, entry1, entry2] when
entry1's dispatch exhausts its retries attempts entry0 and entry1 only —
the raised exception prevents entry2 from ever being attempted,
contradicting the best-effort-drain claim. -/
theorem c5_counterexample :
    (drainQueue w5 "ep" [entry0, entry1, entry2]).1 = [entry0, entry1]
    ∧ (drainQueue w5 "ep" [entry0, entry1, entry2]).2.2 = false
    ∧ entry2 ∉ (drainQueue w5 "ep" [entry0, entry1, entry2]).1 :=
  ⟨rfl, rfl, by decide⟩

/-- C5 amended: within one chain's confirmed queue, dispatch attempts
happen sequentially in append order — the attempted entries are always
a prefix of the queue, and when no dispatch fails the whole queue is
attempted in order; the first dispatch failure raises, so the remaining
entries are not attempted. -/
theorem c5_sequential_drain (w : World) (endpoint : String)
    (txs : List (TxParams × SignedTx)) :
    (drainQueue w endpoint txs).1 = txs.take ((drainQueue w endpoint txs).1.length)
    ∧ ((drainQueue w endpoint txs).2.2 = true → (drainQueue w endpoint txs).1 = txs) := by
  induction txs with
  | nil => exact ⟨rfl, fun _ => rfl⟩
  | cons e rest ih =>
    cases hres : dispatch_signed_transaction w e.2 endpoint with
    | ok h =>
      simp only [drainQueue, hres, List.length_cons, List.take_succ_cons]
      exact ⟨congrArg (List.cons e) ih.1, fun hok => congrArg (List.cons e) (ih.2 hok)⟩
    | error err =>
      simp only [drainQueue, hres]
      exact ⟨rfl, fun hfalse => Bool.noConfusion hfalse⟩

/-- C5 witness: a fully successful drain of the one-entry queue on
chain "a" attempts exactly the whole queue. -/
theorem c5_witness : (drainQueue wOk "ea" [entryA]).1 = [entryA] :=
  (c5_sequential_drain wOk "ea" [entryA]).2 rfl

/-- C6: with chain "alpha" misconfigured (upper bound 0.05 ETH below
the hard-coded 0.15 ETH lower bound) and a balance of 0.1 ETH between
them, the run does not reject the configuration: the negative
difference is truthy in Python, so a transaction with the negative
value -0.05 ETH is built, signed and enqueued. -/
theorem c6_negative_value_enqueued :
    (topUpQueues w6 cfg6).map (fun q => (q "alpha").map (fun t => t.1.value)) =
      Except.ok [(-50000000000000000 : Int)]
    ∧ (topUpQueues w6 cfg6).map (fun q => (q "alpha").length) = Except.ok 1 :=
  ⟨rfl, rfl⟩

/-- C7 counterexample: in a monitor cycle over `cfg7`, the balance
fetch for the single monitored address on endpoint "e1" exhausts its
retries; the exception propagates (there is no handler in the loop), so
the cycle errors out and the healthy network "n2" is never polled —
contradicting fail-soft isolation. -/
theorem c7_counterexample :
    monitorCycle w7 cfg7 = Except.error ()
    ∧ get_balance w7 "A" "e1" = Except.error () :=
  ⟨rfl, rfl⟩

/-- C7 amended: a failed fetch inside the monitor poll cycle raises and
halts the entire cycle (and with it the process, since the `while True`
loop has no handler): here, the raw block-height call for the first
configured network failing makes the whole cycle error out, whatever
else is configured. -/
theorem c7_fetch_failure_halts_cycle (w : World) (cfg : Config) (n : String)
    (rest : List String) (e : Unit)
    (hnames : cfg.networkNames = n :: rest)
    (hblock : w.blockTry (cfg.networks n).endpoint 0 = Except.error e) :
    monitorCycle w cfg = Except.error e := by
  unfold monitorCycle
  rw [hnames]
  apply foldlM_except_error_head
  simp only [hblock]

/-- C7 witness: with the block-height endpoint of network "n1" down,
the whole monitor cycle over `cfg7` errors out. -/
theorem c7_witness : monitorCycle w7b cfg7 = Except.error () :=
  c7_fetch_failure_halts_cycle w7b cfg7 "n1" ["n2"] () rfl rfl

/-- C8: every RPC wrapper in utils.py retries with the `backoff.expo`
exponential schedule and a bounded attempt count — at most 18 attempts
for nonce queries and at most 8 for balance, block-height and dispatch;
the wait schedule between attempts is 1, 2, 4, … (2^k); and when every
allowed attempt fails, the failure propagates as that one operation's
own error result. -/
theorem c8_retry_policy (w : World) (address endpoint : String) (signed : SignedTx) :
    ((nonceRetryTrace w address endpoint).attempts ≤ 18
      ∧ (balanceRetryTrace w address endpoint).attempts ≤ 8
      ∧ (blockRetryTrace w endpoint).attempts ≤ 8
      ∧ (sendRetryTrace w signed endpoint).attempts ≤ 8)
    ∧ ((nonceRetryTrace w address endpoint).waits =
        (List.range' 0 ((nonceRetryTrace w address endpoint).attempts - 1)).map
          (fun k => 2 ^ k)
      ∧ (balanceRetryTrace w address endpoint).waits =
        (List.range' 0 ((balanceRetryTrace w address endpoint).attempts - 1)).map
          (fun k => 2 ^ k)
      ∧ (blockRetryTrace w endpoint).waits =
        (List.range' 0 ((blockRetryTrace w endpoint).attempts - 1)).map (fun k => 2 ^ k)
      ∧ (sendRetryTrace w signed endpoint).waits =
        (List.range' 0 ((sendRetryTrace w signed endpoint).attempts - 1)).map
          (fun k => 2 ^ k))
    ∧ (((∀ i, i < 18 → w.nonceTry endpoint (w.toChecksum address) i = Except.error ()) →
        get_nonce w address endpoint = Except.error ())
      ∧ ((∀ i, i < 8 → w.balanceTry endpoint (w.toChecksum address) i = Except.error ()) →
        get_balance w address endpoint = Except.error ())
      ∧ ((∀ i, i < 8 → w.blockTry endpoint i = Except.error ()) →
        get_block_height w endpoint = Except.error ())
      ∧ ((∀ i, i < 8 → w.sendTry endpoint signed.rawTransaction i = Except.error ()) →
        dispatch_signed_transaction w signed endpoint = Except.error ())) := by
  refine ⟨⟨?_, ?_, ?_, ?_⟩, ⟨?_, ?_, ?_, ?_⟩, ⟨?_, ?_, ?_, ?_⟩⟩
  · exact backoffExpoRun_attempts_le _ 18 0
  · exact backoffExpoRun_attempts_le _ 8 0
  · exact backoffExpoRun_attempts_le _ 8 0
  · exact backoffExpoRun_attempts_le _ 8 0
  · exact backoffExpoRun_waits_expo _ 18 0
  · exact backoffExpoRun_waits_expo _ 8 0
  · exact backoffExpoRun_waits_expo _ 8 0
  · exact backoffExpoRun_waits_expo _ 8 0
  · intro hall
    exact backoffExpoRun_all_fail _ 18 0 (fun j hj => by
      rw [Nat.zero_add]; exact hall j hj)
  · intro hall
    exact backoffExpoRun_all_fail _ 8 0 (fun j hj => by
      rw [Nat.zero_add]; exact hall j hj)
  · intro hall
    exact backoffExpoRun_all_fail _ 8 0 (fun j hj => by
      rw [Nat.zero_add]; exact hall j hj)
  · intro hall
    exact backoffExpoRun_all_fail _ 8 0 (fun j hj => by
      rw [Nat.zero_add]; exact hall j hj)

/-- C8 witness: with every RPC attempt failing, each of the four
wrappers exhausts its retries and surfaces the error as its own
result. -/
theorem c8_witness :
    get_nonce wFail "A" "e" = Except.error ()
    ∧ get_balance wFail "A" "e" = Except.error ()
    ∧ get_block_height wFail "e" = Except.error ()
    ∧ dispatch_signed_transaction wFail sTxF "e" = Except.error () := by
  obtain ⟨-, -, h1, h2, h3, h4⟩ := c8_retry_policy wFail "A" "e" sTxF
  exact ⟨h1 (fun i _ => rfl), h2 (fun i _ => rfl), h3 (fun i _ => rfl), h4 (fun i _ => rfl)⟩

/-- C9: the queue-construction phase behaves exactly like its
generalized form instantiated with the constant lower bound
150000000000000000 wei and with the per-chain configured `threshold` as
the upper bound, for every home- and replica-chain evaluation alike —
the configuration influences only the upper bound. -/
theorem c9_constant_lower_bound (w : World) (cfg : Config) :
    topUpQueues w cfg =
      topUpQueuesWith (fun _ => 150000000000000000) (fun net => net.threshold) w cfg :=
  rfl

/-- C10: when the fetched balance is below the lower bound but the
upper bound equals the balance, the evaluator returns a difference of
`some 0`; Python treats 0 as falsy, so the orchestrator takes the same
no-action path as for `False` and appends nothing to the queue. -/
theorem c10_zero_difference (w : World) (cfg : Config) (chain address : String) (q : QMap)
    (b k : Nat)
    (hb : get_balance w (w.toChecksum address) (cfg.networks chain).endpoint = Except.ok b)
    (hk : get_nonce w (cfg.networks chain).bank.address (cfg.networks chain).endpoint =
      Except.ok k)
    (hlow : (b : Int) < 150000000000000000)
    (hup : (cfg.networks chain).threshold = (b : Int)) :
    is_wallet_below_threshold w address 150000000000000000 (cfg.networks chain).threshold
        (cfg.networks chain).endpoint = Except.ok (some 0)
    ∧ processPair w cfg chain address q = Except.ok q := by
  have hiw : is_wallet_below_threshold w address 150000000000000000
      (cfg.networks chain).threshold (cfg.networks chain).endpoint = Except.ok (some 0) := by
    simp only [is_wallet_below_threshold, hb]
    rw [if_pos hlow, hup]
    simp
  refine ⟨hiw, ?_⟩
  simp only [processPair, hiw, hk]
  simp

/-- C10 witness: balance 0.1 ETH, upper bound 0.1 ETH — the evaluator
returns `some 0` and the queue is left unchanged. -/
theorem c10_witness :
    is_wallet_below_threshold w10 "A" 150000000000000000 (cfg10.networks "z").threshold
        (cfg10.networks "z").endpoint = Except.ok (some 0)
    ∧ processPair w10 cfg10 "z" "A" (fun _ => []) = Except.ok (fun _ => []) :=
  c10_zero_difference w10 cfg10 "z" "A" (fun _ => []) 100000000000000000 3 rfl rfl
    (by decide) rfl
